import Mathlib

/-!
Verification development for the food-delivery support system.

Part 1 embeds the agent orchestration pipeline described in the
repository documentation (README files). The pipeline implementation
itself (FastAPI backend, `app/` package) is not present in the source
tree, so those definitions are modelled from the spec, as marked in
their doc comments.

Part 2 embeds the chat widget's `sendMessage` handler from
`src/frontend/src/components/ChatInterface.tsx`, which is present in
the source tree.
-/

namespace FoodDelivery

/-- Modelled from the spec: the closed set of support categories
(§3 Data Model); the backend classifier code is missing from src/. -/
inductive Category
  | packaging_spillage
  | missing_incorrect_items
  | food_quality
  | order_cancellation
  | refund_query
  | delivery_address
  | vendor_issue
  | rider_issue
  | delivery_status
  | escalation
deriving DecidableEq, Repr

/-- Modelled from the spec: ClassificationResult { category, confidence in [0,1] }
(§3); confidence is modelled as a rational number. -/
structure ClassificationResult where
  category : Category
  confidence : ℚ
deriving DecidableEq, Repr

/-- Modelled from the spec: LanguageResult { code : ISO 639-1 string } (§3). -/
structure LanguageResult where
  code : String
deriving DecidableEq, Repr

/-- Modelled from the spec: ImageAssessment { findings, summary } (§3). -/
structure ImageAssessment where
  findings : List String
  summary : String
deriving DecidableEq, Repr

/-- Modelled from the spec: the metadata block of PipelineOutcome (§3). -/
structure Metadata where
  category : Category
  language_code : String
  image_findings : Option ImageAssessment
  escalated : Bool
deriving DecidableEq, Repr

/-- Modelled from the spec: PipelineOutcome, the terminal artifact (§3). -/
structure PipelineOutcome where
  reply_text : String
  metadata : Metadata
deriving DecidableEq, Repr

/-- Modelled from the spec: failure modes of a single Reasoning Client call
(§4.1): transient service error, malformed (schema-invalid) response,
authentication error. -/
inductive ClientErr
  | transient
  | malformed
  | auth
deriving DecidableEq, Repr

/-- Modelled from the spec: the error taxonomy surfaced by the pipeline (§7). -/
inductive PipelineError
  | transientService
  | malformedResponse
  | authError
  | invalidRequest
deriving DecidableEq, Repr

/-- Modelled from the spec: SupportRequest { text, optional image } (§3);
the image is modelled by its reference string. -/
structure SupportRequest where
  text : String
  image : Option String
deriving DecidableEq, Repr

/-- Modelled from the spec: the configuration surface consumed by the core
(§6): confidence threshold, always-escalate category set, default language
code, retry attempt count. -/
structure Config where
  threshold : ℚ
  alwaysEscalate : List Category
  defaultLanguage : String
  retryAttempts : Nat
deriving DecidableEq, Repr

/-- The rational 1/2, written in normalized form so that closed
comparisons reduce. -/
def oneHalf : ℚ := ⟨1, 2, by decide, by decide⟩

/-- The rational 1/4 in normalized form. -/
def oneQuarter : ℚ := ⟨1, 4, by decide, by decide⟩

/-- The rational 9/10 in normalized form. -/
def nineTenths : ℚ := ⟨9, 10, by decide, by decide⟩

/-- Modelled from the spec: default configuration (threshold 0.5,
default 3 retry attempts). -/
def defaultConfig : Config :=
  { threshold := oneHalf, alwaysEscalate := [], defaultLanguage := "en", retryAttempts := 3 }

/-- Modelled from the spec: the Reasoning Client (§4.1), one template per
stage type. Each field gives the per-attempt behaviour of the external
service: the `Nat` argument is the attempt index, so that the bounded
retry policy can be modelled explicitly. -/
structure ReasoningClient where
  langDetect : String → Nat → Except ClientErr LanguageResult
  classify : String → Option ImageAssessment → Nat → Except ClientErr ClassificationResult
  imageReview : String → Nat → Except ClientErr ImageAssessment
  generateReply : Category → String → Option ImageAssessment → String → Nat → Except ClientErr String

/-- Modelled from the spec: bounded retry on TransientServiceError (§4.1),
starting at attempt index `i` with `n` attempts remaining. A
MalformedResponseError or AuthError is returned immediately; only
transient errors are retried, and exhausting all attempts yields the
transient error. -/
def retryFrom (f : Nat → Except ClientErr α) : Nat → Nat → Except ClientErr α
  | _, 0 => .error .transient
  | i, n+1 =>
    match f i with
    | .error .transient => retryFrom f (i+1) n
    | r => r

/-- Modelled from the spec: a Reasoning Client invocation under the retry
policy with `attempts` bounded attempts (§4.1, default 3). -/
def retryCall (f : Nat → Except ClientErr α) (attempts : Nat) : Except ClientErr α :=
  retryFrom f 0 attempts

/-- Modelled from the spec: mapping a client-level failure surviving the
retry policy to the taxonomy-level error surfaced to the caller (§7). -/
def mapErr : ClientErr → PipelineError
  | .transient => .transientService
  | .malformed => .malformedResponse
  | .auth => .authError

/-- Stage identifiers, used to record which Reasoning Client templates a
pipeline run invoked. -/
inductive StageTag
  | lang_detect
  | classify
  | image_review
  | generate_reply
deriving DecidableEq, Repr

/-- One recorded Reasoning Client call: the stage invoked and its
post-retry failure, `none` meaning the call succeeded. -/
structure CallEv where
  stage : StageTag
  failure : Option ClientErr
deriving DecidableEq, Repr

/-- Modelled from the spec: the Language Detector (§4.2). Empty text
returns the configured default code without invoking the Reasoning
Client; otherwise the detection call is made under the retry policy and
any surviving error aborts. Returns the stage result together with the
calls made. -/
def detectLanguage (cfg : Config) (rc : ReasoningClient) (text : String) :
    Except PipelineError LanguageResult × List CallEv :=
  if text = "" then (.ok ⟨cfg.defaultLanguage⟩, [])
  else
    match retryCall (rc.langDetect text) cfg.retryAttempts with
    | .ok r => (.ok r, [⟨.lang_detect, none⟩])
    | .error e => (.error (mapErr e), [⟨.lang_detect, some e⟩])

/-- Modelled from the spec: the free-text summary used when image
assessment degrades (§4.3). -/
def unavailableSummary : String := "assessment unavailable"

/-- Modelled from the spec: the Image Reviewer (§4.3). Invoked only when
an image is present. On MalformedResponseError it degrades gracefully to
an ImageAssessment with empty findings and an "assessment unavailable"
summary; AuthError or exhausted transient retries abort. -/
def reviewImage (cfg : Config) (rc : ReasoningClient) :
    Option String → Except PipelineError (Option ImageAssessment) × List CallEv
  | none => (.ok none, [])
  | some img =>
    match retryCall (rc.imageReview img) cfg.retryAttempts with
    | .ok a => (.ok (some a), [⟨.image_review, none⟩])
    | .error .malformed => (.ok (some ⟨[], unavailableSummary⟩), [⟨.image_review, some .malformed⟩])
    | .error e => (.error (mapErr e), [⟨.image_review, some e⟩])

/-- Modelled from the spec: the low-confidence override of the Issue
Classifier (§4.4): below the configured threshold the category is forced
to `escalation` regardless of the model's own label. -/
def applyThreshold (cfg : Config) (r : ClassificationResult) : ClassificationResult :=
  if r.confidence < cfg.threshold then { r with category := .escalation } else r

/-- Modelled from the spec: the Issue Classifier stage (§4.4): the
classification template is invoked under the retry policy with the
message text and any image assessment; any surviving error aborts, and a
successful result passes through the low-confidence override. -/
def classifyStage (cfg : Config) (rc : ReasoningClient) (text : String)
    (assess : Option ImageAssessment) :
    Except PipelineError ClassificationResult × List CallEv :=
  match retryCall (rc.classify text assess) cfg.retryAttempts with
  | .ok r => (.ok (applyThreshold cfg r), [⟨.classify, none⟩])
  | .error e => (.error (mapErr e), [⟨.classify, some e⟩])

/-- Modelled from the spec: the Escalation Gate (§4.5). Pure decision
logic: escalate when the category is `escalation`, or confidence is
below the threshold, or the category is in the configured
always-escalate set; also returns the (possibly unchanged) category to
surface in metadata. -/
def escalationGate (cfg : Config) (r : ClassificationResult) : Bool × Category :=
  (decide (r.category = Category.escalation) || decide (r.confidence < cfg.threshold) ||
      decide (r.category ∈ cfg.alwaysEscalate),
    r.category)

/-- Modelled from the spec: the routing marker consumable by the
escalation queue collaborator (§3 invariants). -/
def routingMarker : String := "[ESCALATION-QUEUE]"

/-- Modelled from the spec: the customer-facing body of the escalation
acknowledgment, tagged with the detected language code. -/
def escalationAckBody (lang : String) : String :=
  " Thank you for reaching out. We are sorry for the inconvenience; your request has been routed to a human support agent who will follow up with you shortly. (" ++
    lang ++ ")"

/-- Modelled from the spec: the acknowledgment reply produced when a case
is escalated (§4.6): it states the matter is routed to a human agent and
carries the routing marker; it attempts no resolution. -/
def escalationAck (lang : String) : String :=
  routingMarker ++ escalationAckBody lang

/-- Modelled from the spec: the configured generic apology template used
when reply generation returns a malformed response (§4.6). -/
def genericApology (lang : String) : String :=
  "We apologise for the inconvenience. Our team will get back to you shortly. (" ++ lang ++ ")"

/-- Modelled from the spec: the Response Generator stage (§4.6). If
escalated, the fixed acknowledgment is produced without any Reasoning
Client call; otherwise the reply template is invoked under the retry
policy, a MalformedResponseError falls back to the generic apology, and
AuthError or exhausted transient retries abort. -/
def generateReplyStage (cfg : Config) (rc : ReasoningClient) (cat : Category) (lang : String)
    (assess : Option ImageAssessment) (text : String) (escalated : Bool) :
    Except PipelineError String × List CallEv :=
  if escalated then (.ok (escalationAck lang), [])
  else
    match retryCall (rc.generateReply cat lang assess text) cfg.retryAttempts with
    | .ok reply => (.ok reply, [⟨.generate_reply, none⟩])
    | .error .malformed => (.ok (genericApology lang), [⟨.generate_reply, some .malformed⟩])
    | .error e => (.error (mapErr e), [⟨.generate_reply, some e⟩])

/-- Modelled from the spec: the Orchestrator (§4.7, §6 `process`). A
request with empty text and no image is rejected with InvalidRequestError
before any stage runs; otherwise the stages run in order, any stage
error aborts the pipeline, and a successful run returns the
PipelineOutcome. The second component records every Reasoning Client
call made with its post-retry outcome. -/
def process (cfg : Config) (rc : ReasoningClient) (req : SupportRequest) :
    Except PipelineError PipelineOutcome × List CallEv :=
  if req.text = "" ∧ req.image = none then (.error .invalidRequest, [])
  else
    match detectLanguage cfg rc req.text with
    | (.error e, log1) => (.error e, log1)
    | (.ok lang, log1) =>
      match reviewImage cfg rc req.image with
      | (.error e, log2) => (.error e, log1 ++ log2)
      | (.ok assess, log2) =>
        match classifyStage cfg rc req.text assess with
        | (.error e, log3) => (.error e, log1 ++ log2 ++ log3)
        | (.ok cls, log3) =>
          match generateReplyStage cfg rc (escalationGate cfg cls).2 lang.code assess req.text
              (escalationGate cfg cls).1 with
          | (.error e, log4) => (.error e, log1 ++ log2 ++ log3 ++ log4)
          | (.ok reply, log4) =>
            (.ok ⟨reply, ⟨(escalationGate cfg cls).2, lang.code, assess,
                (escalationGate cfg cls).1⟩⟩,
              log1 ++ log2 ++ log3 ++ log4)

/-! Part 2: the chat widget's `sendMessage` handler, embedded from
`src/frontend/src/components/ChatInterface.tsx`. -/

/-- The JavaScript `String.prototype.trim()` used by the widget's guard:
strip leading and trailing whitespace. -/
def jsTrim (s : String) : String :=
  ⟨((s.data.dropWhile Char.isWhitespace).reverse.dropWhile Char.isWhitespace).reverse⟩

/-- Message role, from the `Message` interface in ChatInterface.tsx. -/
inductive Role
  | user
  | assistant
deriving DecidableEq, Repr

/-- The `metadata` attached to a chat message: the user message gets an
empty object, the assistant message gets the server-returned metadata
(modelled opaquely as a string). -/
inductive MsgMeta
  | emptyObj
  | server (m : String)
deriving DecidableEq, Repr

/-- The `Message` interface of ChatInterface.tsx. -/
structure Message where
  role : Role
  content : String
  metadata : MsgMeta
deriving DecidableEq, Repr

/-- The request metadata sent to the `/chat` endpoint: an empty object,
or one carrying the uploaded image path under `image_url`. -/
inductive ReqMeta
  | emptyObj
  | imageUrl (path : String)
deriving DecidableEq, Repr

/-- The body of a successful `/chat` response used by the component:
`response.data.response` and `response.data.metadata`. -/
structure ChatResponse where
  response : String
  metadata : String
deriving DecidableEq, Repr

/-- A network failure (rejected axios promise). -/
inductive NetErr
  | httpFailure
deriving DecidableEq, Repr

/-- The component state touched by `sendMessage`: `messages`, `input`,
`isLoading`, `selectedImage` (a file, modelled by its name). -/
structure ChatState where
  messages : List Message
  input : String
  isLoading : Bool
  selectedImage : Option String
deriving DecidableEq, Repr

/-- The network environment: the `/upload-image` call (returns
`response.data.filepath`) and the `/chat` call. -/
structure Net where
  upload : String → Except NetErr String
  chat : String → ReqMeta → Except NetErr ChatResponse

/-- Observable effects of one `sendMessage` run: outbound HTTP calls and
the error toast. -/
inductive SendEv
  | uploadCall (file : String)
  | chatCall (message : String) (meta : ReqMeta)
  | toastError
deriving DecidableEq, Repr

/-- The user message appended at the start of `sendMessage`
(ChatInterface.tsx lines 67-71): role user, the raw `input` as content,
empty metadata. -/
def mkUserMessage (content : String) : Message :=
  ⟨.user, content, .emptyObj⟩

/-- The assistant message appended on a successful `/chat` response
(ChatInterface.tsx lines 90-97). -/
def mkAssistantMessage (r : ChatResponse) : Message :=
  ⟨.assistant, r.response, .server r.metadata⟩

/-- The state updates performed before the `try` block (ChatInterface.tsx
lines 73-75): append the user message, clear the input, set loading. -/
def preNetworkState (s : ChatState) : ChatState :=
  { s with messages := s.messages ++ [mkUserMessage s.input], input := "", isLoading := true }

/-- The `/chat` call and its aftermath (ChatInterface.tsx lines 85-109):
on success append the assistant message; on failure show the error
toast; either way the `finally` clears the loading flag. `input` is the
captured local variable, not the (already cleared) state field. -/
def chatPhase (net : Net) (input : String) (meta : ReqMeta) (s : ChatState) :
    ChatState × List SendEv :=
  match net.chat input meta with
  | .ok resp =>
    ({ s with messages := s.messages ++ [mkAssistantMessage resp], isLoading := false },
      [.chatCall input meta])
  | .error _ =>
    ({ s with isLoading := false }, [.chatCall input meta, .toastError])

/-- The `try`/`catch`/`finally` body of `sendMessage` (ChatInterface.tsx
lines 77-109): when an image is selected it is uploaded first, the
image is cleared from the state only after the upload succeeds, and an
upload failure is caught by the same `catch` (toast) and `finally`
(loading reset) without any `/chat` call. -/
def networkPhase (net : Net) (input : String) (s : ChatState) : ChatState × List SendEv :=
  match s.selectedImage with
  | none => chatPhase net input .emptyObj s
  | some file =>
    match net.upload file with
    | .ok path =>
      let t := chatPhase net input (.imageUrl path) { s with selectedImage := none }
      (t.1, .uploadCall file :: t.2)
    | .error _ =>
      ({ s with isLoading := false }, [.uploadCall file, .toastError])

/-- The `sendMessage` handler (ChatInterface.tsx lines 64-110): the guard
`if (!input.trim() && !selectedImage) return;` does nothing when the
trimmed input is empty and no image is selected; otherwise the
pre-network state updates run, then the network phase with the captured
raw input. -/
def sendMessage (net : Net) (s : ChatState) : ChatState × List SendEv :=
  if jsTrim s.input = "" ∧ s.selectedImage = none then (s, [])
  else networkPhase net s.input (preNetworkState s)

/-- Which request metadata the `/chat` call of a `sendMessage` run ends up
being issued with: the empty object when no image is selected, the
uploaded path when the upload succeeds, and none at all when the upload
fails (no `/chat` call is made then). -/
def sentMeta (net : Net) (s : ChatState) : Option ReqMeta :=
  match s.selectedImage with
  | none => some .emptyObj
  | some file =>
    match net.upload file with
    | .ok path => some (.imageUrl path)
    | .error _ => none

/-! Concrete fixtures used to evaluate the embedded definitions on
closed inputs. -/

/-- A Reasoning Client on which every stage succeeds at the first
attempt, detecting Arabic and classifying with high confidence. -/
def okClient : ReasoningClient where
  langDetect := fun _ _ => .ok ⟨"ar"⟩
  classify := fun _ _ _ => .ok ⟨.packaging_spillage, nineTenths⟩
  imageReview := fun _ _ => .ok ⟨["packaging_damage"], "crushed box with leaked sauce"⟩
  generateReply := fun _ lang _ _ _ => .ok ("We are sorry about the damaged package. (" ++ lang ++ ")")

/-- A Reasoning Client whose classification always comes back with
confidence 1/4, below the default threshold. -/
def lowConfClient : ReasoningClient where
  langDetect := fun _ _ => .ok ⟨"ar"⟩
  classify := fun _ _ _ => .ok ⟨.food_quality, oneQuarter⟩
  imageReview := fun _ _ => .ok ⟨["packaging_damage"], "crushed box with leaked sauce"⟩
  generateReply := fun _ lang _ _ _ => .ok ("We are sorry about the damaged package. (" ++ lang ++ ")")

/-- A Reasoning Client whose classification template always raises
AuthError. -/
def authClient : ReasoningClient where
  langDetect := fun _ _ => .ok ⟨"ar"⟩
  classify := fun _ _ _ => .error .auth
  imageReview := fun _ _ => .ok ⟨["packaging_damage"], "crushed box with leaked sauce"⟩
  generateReply := fun _ lang _ _ _ => .ok ("We are sorry about the damaged package. (" ++ lang ++ ")")

/-- A Reasoning Client whose image-review template always returns a
schema-invalid response. -/
def malformedImgClient : ReasoningClient where
  langDetect := fun _ _ => .ok ⟨"ar"⟩
  classify := fun _ _ _ => .ok ⟨.packaging_spillage, nineTenths⟩
  imageReview := fun _ _ => .error .malformed
  generateReply := fun _ lang _ _ _ => .ok ("We are sorry about the damaged package. (" ++ lang ++ ")")

/-- A text-only support request. -/
def reqText : SupportRequest := ⟨"my order box arrived crushed and sauce leaked everywhere", none⟩

/-- A support request carrying an image reference. -/
def reqImg : SupportRequest := ⟨"see the attached photo", some "box.jpg"⟩

/-- The empty support request: no text, no image. -/
def reqEmptyReq : SupportRequest := ⟨"", none⟩

/-- The PipelineOutcome produced by `process` on `lowConfClient` and
`reqText` under the default configuration. -/
def lowConfOutcome : PipelineOutcome :=
  ⟨escalationAck "ar", ⟨.escalation, "ar", none, true⟩⟩

/-- A network environment on which both endpoints succeed. -/
def okNet : Net where
  upload := fun file => .ok ("/uploads/" ++ file)
  chat := fun _ _ => .ok ⟨"How can we help further?", "srv-meta"⟩

/-- A network environment whose `/chat` endpoint always fails while the
upload endpoint succeeds. -/
def chatFailNet : Net where
  upload := fun file => .ok ("/uploads/" ++ file)
  chat := fun _ _ => .error .httpFailure

/-- A network environment whose upload endpoint always fails. -/
def uploadFailNet : Net where
  upload := fun _ => .error .httpFailure
  chat := fun _ _ => .ok ⟨"How can we help further?", "srv-meta"⟩

/-- A chat widget state with typed text and no selected image. -/
def textChatState : ChatState := ⟨[], "  hello there ", false, none⟩

/-- A chat widget state with typed text and a selected image. -/
def imgChatState : ChatState := ⟨[], "see photo", false, some "box.jpg"⟩

/-- A chat widget state with nothing typed and no image. -/
def emptyChatState : ChatState := ⟨[], "", false, none⟩

/-! Supporting lemmas about the retry policy and the stage functions. -/

theorem retryFrom_cases (f : Nat → Except ClientErr α) :
    ∀ n i, retryFrom f i n = Except.error ClientErr.transient ∨ ∃ j, retryFrom f i n = f j := by
  intro n
  induction n with
  | zero => exact fun i => Or.inl rfl
  | succ n ih =>
    intro i
    rcases hf : f i with e | a
    · cases e with
      | transient => simpa only [retryFrom, hf] using ih (i+1)
      | malformed => exact Or.inr ⟨i, by simp only [retryFrom, hf]⟩
      | auth => exact Or.inr ⟨i, by simp only [retryFrom, hf]⟩
    · exact Or.inr ⟨i, by simp only [retryFrom, hf]⟩

theorem retryCall_ok (f : Nat → Except ClientErr α) (n : Nat) (x : α)
    (h : retryCall f n = .ok x) : ∃ j, f j = .ok x := by
  unfold retryCall at h
  rcases retryFrom_cases f n 0 with hc | ⟨j, hj⟩
  · rw [hc] at h
    exact absurd h (by simp)
  · exact ⟨j, by rw [← hj, h]⟩

theorem retryCall_exhausted (f : Nat → Except ClientErr α)
    (hall : ∀ i, f i = Except.error ClientErr.transient) :
    ∀ n, retryCall f n = Except.error ClientErr.transient := by
  intro n
  unfold retryCall
  rcases retryFrom_cases f n 0 with hc | ⟨j, hj⟩
  · exact hc
  · rw [hj, hall j]

theorem detectLanguage_log_stage (cfg : Config) (rc : ReasoningClient) (t : String) :
    ∀ ev ∈ (detectLanguage cfg rc t).2, ev.stage = StageTag.lang_detect := by
  unfold detectLanguage
  split
  · simp
  · split <;> simp

theorem classifyStage_log_stage (cfg : Config) (rc : ReasoningClient) (t : String)
    (assess : Option ImageAssessment) :
    ∀ ev ∈ (classifyStage cfg rc t assess).2, ev.stage = StageTag.classify := by
  unfold classifyStage
  split <;> simp

theorem generateReplyStage_log_stage (cfg : Config) (rc : ReasoningClient) (cat : Category)
    (lang : String) (assess : Option ImageAssessment) (t : String) (esc : Bool) :
    ∀ ev ∈ (generateReplyStage cfg rc cat lang assess t esc).2,
      ev.stage = StageTag.generate_reply := by
  unfold generateReplyStage
  split
  · simp
  · split <;> simp

theorem detectLanguage_ok_log (cfg : Config) (rc : ReasoningClient) (t : String)
    (l : LanguageResult) (log : List CallEv)
    (h : detectLanguage cfg rc t = (.ok l, log)) :
    ∀ ev ∈ log, ev.failure = none := by
  unfold detectLanguage at h
  split at h
  · simp only [Prod.mk.injEq] at h
    rw [← h.2]
    simp
  · split at h <;> simp only [Prod.mk.injEq] at h
    · rw [← h.2]
      simp
    · exact absurd h.1 (by simp)

theorem reviewImage_ok_log (cfg : Config) (rc : ReasoningClient) (io : Option String)
    (a : Option ImageAssessment) (log : List CallEv)
    (h : reviewImage cfg rc io = (.ok a, log)) :
    ∀ ev ∈ log, ev.failure = none ∨ ev.failure = some ClientErr.malformed := by
  unfold reviewImage at h
  split at h
  · simp only [Prod.mk.injEq] at h
    rw [← h.2]
    simp
  · split at h <;> simp only [Prod.mk.injEq] at h
    · rw [← h.2]
      simp
    · rw [← h.2]
      simp
    · exact absurd h.1 (by simp)

theorem classifyStage_ok_log (cfg : Config) (rc : ReasoningClient) (t : String)
    (assess : Option ImageAssessment) (cls : ClassificationResult) (log : List CallEv)
    (h : classifyStage cfg rc t assess = (.ok cls, log)) :
    ∀ ev ∈ log, ev.failure = none := by
  unfold classifyStage at h
  split at h <;> simp only [Prod.mk.injEq] at h
  · rw [← h.2]
    simp
  · exact absurd h.1 (by simp)

theorem generateReplyStage_ok_log (cfg : Config) (rc : ReasoningClient) (cat : Category)
    (lang : String) (assess : Option ImageAssessment) (t : String) (esc : Bool)
    (reply : String) (log : List CallEv)
    (h : generateReplyStage cfg rc cat lang assess t esc = (.ok reply, log)) :
    ∀ ev ∈ log, ev.failure = none ∨ ev.failure = some ClientErr.malformed := by
  unfold generateReplyStage at h
  split at h
  · simp only [Prod.mk.injEq] at h
    rw [← h.2]
    simp
  · split at h <;> simp only [Prod.mk.injEq] at h
    · rw [← h.2]
      simp
    · rw [← h.2]
      simp
    · exact absurd h.1 (by simp)

theorem classifyStage_ok_inv (cfg : Config) (rc : ReasoningClient) (t : String)
    (assess : Option ImageAssessment) (cls : ClassificationResult) (log : List CallEv)
    (h : classifyStage cfg rc t assess = (.ok cls, log)) :
    ∃ r, retryCall (rc.classify t assess) cfg.retryAttempts = .ok r ∧
      cls = applyThreshold cfg r ∧ log = [⟨.classify, none⟩] := by
  unfold classifyStage at h
  split at h <;> simp only [Prod.mk.injEq] at h
  · rename_i r heq
    refine ⟨r, heq, ?_, h.2.symm⟩
    have := h.1
    simp only [Except.ok.injEq] at this
    exact this.symm
  · exact absurd h.1 (by simp)

theorem process_ok_inv (cfg : Config) (rc : ReasoningClient) (req : SupportRequest)
    (out : PipelineOutcome) (log : List CallEv)
    (h : process cfg rc req = (.ok out, log)) :
    ∃ lang log1 assess log2 cls log3 reply log4,
      detectLanguage cfg rc req.text = (.ok lang, log1) ∧
      reviewImage cfg rc req.image = (.ok assess, log2) ∧
      classifyStage cfg rc req.text assess = (.ok cls, log3) ∧
      generateReplyStage cfg rc (escalationGate cfg cls).2 lang.code assess req.text
        (escalationGate cfg cls).1 = (.ok reply, log4) ∧
      out = ⟨reply, ⟨(escalationGate cfg cls).2, lang.code, assess, (escalationGate cfg cls).1⟩⟩ ∧
      log = log1 ++ log2 ++ log3 ++ log4 := by
  unfold process at h
  split at h
  · exact absurd h (by simp)
  · split at h
    · exact absurd h (by simp)
    · rename_i lang log1 heq1
      split at h
      · exact absurd h (by simp)
      · rename_i assess log2 heq2
        split at h
        · exact absurd h (by simp)
        · rename_i cls log3 heq3
          split at h
          · exact absurd h (by simp)
          · rename_i reply log4 heq4
            simp only [Prod.mk.injEq, Except.ok.injEq] at h
            exact ⟨lang, log1, assess, log2, cls, log3, reply, log4,
              heq1, heq2, heq3, heq4, h.1.symm, h.2.symm⟩

/-! Claim theorems. -/

/-- Claim C8: the Escalation Gate is a pure, deterministic function of its
inputs: equal ClassificationResults and equal configurations yield the
same escalated flag and the same surfaced category. (In this embedding
the gate is a plain function with no state and no external calls, so
determinism is exactly extensional equality of repeated evaluations.) -/
theorem escalationGate_deterministic (cfg₁ cfg₂ : Config) (r₁ r₂ : ClassificationResult)
    (hc : cfg₁ = cfg₂) (hr : r₁ = r₂) :
    (escalationGate cfg₁ r₁).1 = (escalationGate cfg₂ r₂).1 ∧
    (escalationGate cfg₁ r₁).2 = (escalationGate cfg₂ r₂).2 := by
  subst hc
  subst hr
  exact ⟨rfl, rfl⟩

theorem escalationGate_deterministic_witness :
    defaultConfig = defaultConfig ∧
    (⟨Category.refund_query, nineTenths⟩ : ClassificationResult) = ⟨Category.refund_query, nineTenths⟩ ∧
    ((escalationGate defaultConfig ⟨Category.refund_query, nineTenths⟩).1 =
        (escalationGate defaultConfig ⟨Category.refund_query, nineTenths⟩).1 ∧
      (escalationGate defaultConfig ⟨Category.refund_query, nineTenths⟩).2 =
        (escalationGate defaultConfig ⟨Category.refund_query, nineTenths⟩).2) :=
  ⟨rfl, rfl,
    escalationGate_deterministic defaultConfig defaultConfig
      ⟨Category.refund_query, nineTenths⟩ ⟨Category.refund_query, nineTenths⟩ rfl rfl⟩

/-- Claim C3: a request with empty text and no image is rejected with
InvalidRequestError with an empty call log — no Reasoning Client call is
made, so no stage runs; likewise the chat widget's guard returns without
any state change or network call when nothing is typed and no image is
selected. -/
theorem process_empty_request_rejected (cfg : Config) (rc : ReasoningClient)
    (req : SupportRequest) (net : Net) (s : ChatState)
    (ht : req.text = "") (hi : req.image = none)
    (hs1 : s.input = "") (hs2 : s.selectedImage = none) :
    process cfg rc req = (.error .invalidRequest, []) ∧ sendMessage net s = (s, []) := by
  constructor
  · unfold process
    rw [if_pos ⟨ht, hi⟩]
  · unfold sendMessage
    rw [if_pos ⟨by rw [hs1]; rfl, hs2⟩]

theorem process_empty_request_rejected_witness :
    reqEmptyReq.text = "" ∧ reqEmptyReq.image = none ∧
    emptyChatState.input = "" ∧ emptyChatState.selectedImage = none ∧
    (process defaultConfig okClient reqEmptyReq = (.error .invalidRequest, []) ∧
      sendMessage okNet emptyChatState = (emptyChatState, [])) :=
  ⟨rfl, rfl, rfl, rfl,
    process_empty_request_rejected defaultConfig okClient reqEmptyReq okNet emptyChatState
      rfl rfl rfl rfl⟩

theorem process_ok_log_benign (cfg : Config) (rc : ReasoningClient) (req : SupportRequest)
    (out : PipelineOutcome) (log : List CallEv)
    (h : process cfg rc req = (.ok out, log)) :
    ∀ ev ∈ log, ev.failure = none ∨ ev.failure = some ClientErr.malformed := by
  obtain ⟨lang, log1, assess, log2, cls, log3, reply, log4, h1, h2, h3, h4, hout, hlog⟩ :=
    process_ok_inv cfg rc req out log h
  intro ev hev
  rw [hlog] at hev
  simp only [List.mem_append] at hev
  rcases hev with ((hev | hev) | hev) | hev
  · exact Or.inl (detectLanguage_ok_log cfg rc req.text lang log1 h1 ev hev)
  · exact reviewImage_ok_log cfg rc req.image assess log2 h2 ev hev
  · exact Or.inl (classifyStage_ok_log cfg rc req.text assess cls log3 h3 ev hev)
  · exact generateReplyStage_ok_log cfg rc (escalationGate cfg cls).2 lang.code assess req.text
      (escalationGate cfg cls).1 reply log4 h4 ev hev

theorem process_ok_build (cfg : Config) (rc : ReasoningClient) (req : SupportRequest)
    (lang : LanguageResult) (log1 : List CallEv) (assess : Option ImageAssessment)
    (log2 : List CallEv) (cls : ClassificationResult) (log3 : List CallEv)
    (reply : String) (log4 : List CallEv)
    (hne : ¬(req.text = "" ∧ req.image = none))
    (h1 : detectLanguage cfg rc req.text = (.ok lang, log1))
    (h2 : reviewImage cfg rc req.image = (.ok assess, log2))
    (h3 : classifyStage cfg rc req.text assess = (.ok cls, log3))
    (h4 : generateReplyStage cfg rc (escalationGate cfg cls).2 lang.code assess req.text
        (escalationGate cfg cls).1 = (.ok reply, log4)) :
    process cfg rc req =
      (.ok ⟨reply, ⟨(escalationGate cfg cls).2, lang.code, assess, (escalationGate cfg cls).1⟩⟩,
        log1 ++ log2 ++ log3 ++ log4) := by
  unfold process
  rw [if_neg hne]
  simp only [h1, h2, h3, h4]

theorem escalationAck_ne_empty (lang : String) : escalationAck lang ≠ "" := by
  intro hcontra
  have hd : (escalationAck lang).data = [] := by rw [hcontra]
  unfold escalationAck at hd
  rw [String.data_append] at hd
  rcases List.append_eq_nil.mp hd with ⟨hrm, -⟩
  exact absurd hrm (by decide)

theorem escalationAck_marker (lang : String) :
    ∃ pre post, escalationAck lang = pre ++ routingMarker ++ post := by
  refine ⟨"", escalationAckBody lang, ?_⟩
  rw [String.empty_append]
  rfl

/-- Claim C1: for every ClassificationResult the model produces with
confidence below the configured threshold, a completed pipeline run has
`escalated = true` and the category surfaced in PipelineOutcome.metadata
overridden to `escalation`, regardless of the category the model chose. -/
theorem process_low_confidence_escalates (cfg : Config) (rc : ReasoningClient)
    (req : SupportRequest) (out : PipelineOutcome) (log : List CallEv)
    (hlow : ∀ t a i r, rc.classify t a i = .ok r → r.confidence < cfg.threshold)
    (h : process cfg rc req = (.ok out, log)) :
    out.metadata.escalated = true ∧ out.metadata.category = Category.escalation := by
  obtain ⟨lang, log1, assess, log2, cls, log3, reply, log4, h1, h2, h3, h4, hout, hlog⟩ :=
    process_ok_inv cfg rc req out log h
  obtain ⟨r, hr, hcls, -⟩ := classifyStage_ok_inv cfg rc req.text assess cls log3 h3
  obtain ⟨j, hj⟩ := retryCall_ok _ _ _ hr
  have hconf : r.confidence < cfg.threshold := hlow _ _ _ _ hj
  have hcat : cls = { r with category := .escalation } := by
    rw [hcls]
    unfold applyThreshold
    rw [if_pos hconf]
  subst hout
  constructor
  · show (escalationGate cfg cls).1 = true
    simp [escalationGate, hcat]
  · show (escalationGate cfg cls).2 = Category.escalation
    simp [escalationGate, hcat]

theorem process_low_confidence_escalates_witness :
    (∀ t a i r, lowConfClient.classify t a i = .ok r → r.confidence < defaultConfig.threshold) ∧
    process defaultConfig lowConfClient reqText =
      (.ok lowConfOutcome, [⟨.lang_detect, none⟩, ⟨.classify, none⟩]) ∧
    (lowConfOutcome.metadata.escalated = true ∧
      lowConfOutcome.metadata.category = Category.escalation) := by
  have hlow : ∀ t a i r, lowConfClient.classify t a i = .ok r →
      r.confidence < defaultConfig.threshold := by
    intro t a i r hx
    have hx' : (Except.ok ⟨Category.food_quality, oneQuarter⟩ :
        Except ClientErr ClassificationResult) = .ok r := hx
    injection hx' with hx''
    rw [← hx'']
    decide
  have hp : process defaultConfig lowConfClient reqText =
      (.ok lowConfOutcome, [⟨.lang_detect, none⟩, ⟨.classify, none⟩]) := by rfl
  exact ⟨hlow, hp,
    process_low_confidence_escalates defaultConfig lowConfClient reqText lowConfOutcome
      [⟨.lang_detect, none⟩, ⟨.classify, none⟩] hlow hp⟩

/-- Claim C2: whenever a pipeline run records a fatal Reasoning Client
failure at any stage — an AuthError, or a TransientServiceError that
survived the bounded retries — the pipeline aborts with a single
taxonomy-level error and returns no PipelineOutcome, complete or
half-formed. -/
theorem process_fatal_error_aborts (cfg : Config) (rc : ReasoningClient) (req : SupportRequest)
    (s : StageTag) (e : ClientErr)
    (he : e = ClientErr.auth ∨ e = ClientErr.transient)
    (hmem : CallEv.mk s (some e) ∈ (process cfg rc req).2) :
    (∃ err, (process cfg rc req).1 = .error err) ∧
    ∀ out, (process cfg rc req).1 ≠ .ok out := by
  rcases hq : process cfg rc req with ⟨res, log⟩
  rw [hq] at hmem
  rcases res with err | out
  · constructor
    · exact ⟨err, rfl⟩
    · intro out hout
      exact absurd hout (by simp)
  · have hben := process_ok_log_benign cfg rc req out log hq (CallEv.mk s (some e)) hmem
    rcases hben with hb | hb
    · exact absurd hb (by simp)
    · simp only [Option.some.injEq] at hb
      rcases he with rfl | rfl <;> cases hb

theorem process_fatal_error_aborts_witness :
    (ClientErr.auth = ClientErr.auth ∨ ClientErr.auth = ClientErr.transient) ∧
    CallEv.mk StageTag.classify (some ClientErr.auth) ∈
      (process defaultConfig authClient reqText).2 ∧
    ((∃ err, (process defaultConfig authClient reqText).1 = .error err) ∧
      ∀ out, (process defaultConfig authClient reqText).1 ≠ .ok out) := by
  have he : ClientErr.auth = ClientErr.auth ∨ ClientErr.auth = ClientErr.transient := Or.inl rfl
  have hmem : CallEv.mk StageTag.classify (some ClientErr.auth) ∈
      (process defaultConfig authClient reqText).2 := by decide
  exact ⟨he, hmem,
    process_fatal_error_aborts defaultConfig authClient reqText StageTag.classify
      ClientErr.auth he hmem⟩

/-- Claim C4: every completed request's PipelineOutcome carries in
metadata exactly the language code of the LanguageResult the Language
Detector stage computed for that request. -/
theorem process_language_code_matches (cfg : Config) (rc : ReasoningClient)
    (req : SupportRequest) (out : PipelineOutcome) (log : List CallEv)
    (h : process cfg rc req = (.ok out, log)) :
    ∃ lr lg, detectLanguage cfg rc req.text = (.ok lr, lg) ∧
      out.metadata.language_code = lr.code := by
  obtain ⟨lang, log1, assess, log2, cls, log3, reply, log4, h1, h2, h3, h4, hout, hlog⟩ :=
    process_ok_inv cfg rc req out log h
  exact ⟨lang, log1, h1, by rw [hout]⟩

theorem process_language_code_matches_witness :
    process defaultConfig okClient reqText =
      (.ok ⟨"We are sorry about the damaged package. (ar)",
          ⟨.packaging_spillage, "ar", none, false⟩⟩,
        [⟨.lang_detect, none⟩, ⟨.classify, none⟩, ⟨.generate_reply, none⟩]) ∧
    ∃ lr lg, detectLanguage defaultConfig okClient reqText.text = (.ok lr, lg) ∧
      (⟨"We are sorry about the damaged package. (ar)",
          ⟨.packaging_spillage, "ar", none, false⟩⟩ : PipelineOutcome).metadata.language_code =
        lr.code := by
  have hp : process defaultConfig okClient reqText =
      (.ok ⟨"We are sorry about the damaged package. (ar)",
          ⟨.packaging_spillage, "ar", none, false⟩⟩,
        [⟨.lang_detect, none⟩, ⟨.classify, none⟩, ⟨.generate_reply, none⟩]) := by rfl
  exact ⟨hp, process_language_code_matches defaultConfig okClient reqText _ _ hp⟩

/-- Claim C5: when an image is attached and the Image Reviewer's
Reasoning Client call comes back malformed, the Image Reviewer returns
an ImageAssessment with empty findings and the "assessment unavailable"
summary, and the pipeline still runs classification and response
generation to completion instead of failing the request. -/
theorem process_image_malformed_degrades (cfg : Config) (rc : ReasoningClient)
    (req : SupportRequest) (img : String) (lang : LanguageResult) (r : ClassificationResult)
    (reply : String) (log1 log3 log4 : List CallEv)
    (himg : req.image = some img)
    (hmal : retryCall (rc.imageReview img) cfg.retryAttempts = .error .malformed)
    (hlang : detectLanguage cfg rc req.text = (.ok lang, log1))
    (hcls : classifyStage cfg rc req.text (some ⟨[], unavailableSummary⟩) = (.ok r, log3))
    (hgen : generateReplyStage cfg rc (escalationGate cfg r).2 lang.code
        (some ⟨[], unavailableSummary⟩) req.text (escalationGate cfg r).1 = (.ok reply, log4)) :
    reviewImage cfg rc req.image =
      (.ok (some ⟨[], unavailableSummary⟩), [⟨.image_review, some .malformed⟩]) ∧
    process cfg rc req =
      (.ok ⟨reply, ⟨(escalationGate cfg r).2, lang.code, some ⟨[], unavailableSummary⟩,
          (escalationGate cfg r).1⟩⟩,
        log1 ++ [⟨.image_review, some .malformed⟩] ++ log3 ++ log4) := by
  have hrev : reviewImage cfg rc req.image =
      (.ok (some ⟨[], unavailableSummary⟩), [⟨.image_review, some .malformed⟩]) := by
    rw [himg]
    unfold reviewImage
    simp only [hmal]
  refine ⟨hrev, ?_⟩
  have hne : ¬(req.text = "" ∧ req.image = none) := by
    rintro ⟨-, hi⟩
    rw [himg] at hi
    cases hi
  exact process_ok_build cfg rc req lang log1 (some ⟨[], unavailableSummary⟩)
    [⟨.image_review, some .malformed⟩] r log3 reply log4 hne hlang hrev hcls hgen

theorem process_image_malformed_degrades_witness :
    reqImg.image = some "box.jpg" ∧
    retryCall (malformedImgClient.imageReview "box.jpg") defaultConfig.retryAttempts =
      .error .malformed ∧
    (reviewImage defaultConfig malformedImgClient reqImg.image =
        (.ok (some ⟨[], unavailableSummary⟩), [⟨.image_review, some .malformed⟩]) ∧
      process defaultConfig malformedImgClient reqImg =
        (.ok ⟨"We are sorry about the damaged package. (ar)",
            ⟨.packaging_spillage, "ar", some ⟨[], unavailableSummary⟩, false⟩⟩,
          [⟨.lang_detect, none⟩] ++ [⟨.image_review, some .malformed⟩] ++ [⟨.classify, none⟩] ++
            [⟨.generate_reply, none⟩])) := by
  have himg : reqImg.image = some "box.jpg" := rfl
  have hmal : retryCall (malformedImgClient.imageReview "box.jpg") defaultConfig.retryAttempts =
      .error .malformed := rfl
  have hlang : detectLanguage defaultConfig malformedImgClient reqImg.text =
      (.ok ⟨"ar"⟩, [⟨.lang_detect, none⟩]) := rfl
  have hcls : classifyStage defaultConfig malformedImgClient reqImg.text
      (some ⟨[], unavailableSummary⟩) =
      (.ok ⟨.packaging_spillage, nineTenths⟩, [⟨.classify, none⟩]) := rfl
  have hgen : generateReplyStage defaultConfig malformedImgClient
      (escalationGate defaultConfig ⟨.packaging_spillage, nineTenths⟩).2 "ar"
      (some ⟨[], unavailableSummary⟩) reqImg.text
      (escalationGate defaultConfig ⟨.packaging_spillage, nineTenths⟩).1 =
      (.ok "We are sorry about the damaged package. (ar)", [⟨.generate_reply, none⟩]) := rfl
  exact ⟨himg, hmal,
    process_image_malformed_degrades defaultConfig malformedImgClient reqImg "box.jpg"
      ⟨"ar"⟩ ⟨.packaging_spillage, nineTenths⟩ "We are sorry about the damaged package. (ar)"
      [⟨.lang_detect, none⟩] [⟨.classify, none⟩] [⟨.generate_reply, none⟩]
      himg hmal hlang hcls hgen⟩

/-- Claim C6: every PipelineOutcome with `escalated = true` carries as
reply_text the fixed customer-facing acknowledgment for the detected
language — not a generated resolution attempt — which is non-empty and
contains the routing marker for the escalation queue. -/
theorem process_escalated_reply_ack (cfg : Config) (rc : ReasoningClient)
    (req : SupportRequest) (out : PipelineOutcome) (log : List CallEv)
    (h : process cfg rc req = (.ok out, log))
    (hesc : out.metadata.escalated = true) :
    out.reply_text = escalationAck out.metadata.language_code ∧
    out.reply_text ≠ "" ∧
    ∃ pre post, out.reply_text = pre ++ routingMarker ++ post := by
  obtain ⟨lang, log1, assess, log2, cls, log3, reply, log4, h1, h2, h3, h4, hout, hlog⟩ :=
    process_ok_inv cfg rc req out log h
  subst hout
  have hesc' : (escalationGate cfg cls).1 = true := hesc
  unfold generateReplyStage at h4
  rw [if_pos hesc'] at h4
  simp only [Prod.mk.injEq, Except.ok.injEq] at h4
  have hreply : reply = escalationAck lang.code := h4.1.symm
  refine ⟨hreply, ?_, ?_⟩
  · rw [hreply]
    exact escalationAck_ne_empty lang.code
  · rw [hreply]
    exact escalationAck_marker lang.code

theorem process_escalated_reply_ack_witness :
    process defaultConfig lowConfClient reqText =
      (.ok lowConfOutcome, [⟨.lang_detect, none⟩, ⟨.classify, none⟩]) ∧
    lowConfOutcome.metadata.escalated = true ∧
    (lowConfOutcome.reply_text = escalationAck lowConfOutcome.metadata.language_code ∧
      lowConfOutcome.reply_text ≠ "" ∧
      ∃ pre post, lowConfOutcome.reply_text = pre ++ routingMarker ++ post) := by
  have hp : process defaultConfig lowConfClient reqText =
      (.ok lowConfOutcome, [⟨.lang_detect, none⟩, ⟨.classify, none⟩]) := by rfl
  have hesc : lowConfOutcome.metadata.escalated = true := rfl
  exact ⟨hp, hesc,
    process_escalated_reply_ack defaultConfig lowConfClient reqText lowConfOutcome
      [⟨.lang_detect, none⟩, ⟨.classify, none⟩] hp hesc⟩

/-- Claim C7: for a request without an image, no Image Reviewer call is
made during the run (no `image_review` entry in the call log, whatever
the outcome), and a completed run's metadata has `image_findings`
absent — `none`, not an empty placeholder. -/
theorem process_text_only_no_image_review (cfg : Config) (rc : ReasoningClient)
    (req : SupportRequest) (h : req.image = none) :
    (∀ out log, process cfg rc req = (.ok out, log) → out.metadata.image_findings = none) ∧
    (∀ f, CallEv.mk StageTag.image_review f ∉ (process cfg rc req).2) := by
  constructor
  · intro out log hp
    obtain ⟨lang, log1, assess, log2, cls, log3, reply, log4, h1, h2, h3, h4, hout, hlog⟩ :=
      process_ok_inv cfg rc req out log hp
    rw [h] at h2
    have h2' : ((.ok none, []) :
        Except PipelineError (Option ImageAssessment) × List CallEv) = (.ok assess, log2) := h2
    simp only [Prod.mk.injEq, Except.ok.injEq] at h2'
    subst hout
    exact h2'.1.symm
  · intro f hmem
    unfold process at hmem
    by_cases hcond : req.text = "" ∧ req.image = none
    · rw [if_pos hcond] at hmem
      simp at hmem
    · rw [if_neg hcond] at hmem
      split at hmem
      · rename_i e log1 heq1
        have := detectLanguage_log_stage cfg rc req.text ⟨.image_review, f⟩
          (by rw [heq1]; exact hmem)
        simp at this
      · rename_i lang log1 heq1
        split at hmem
        · rename_i e log2 heq2
          rw [h] at heq2
          exact absurd heq2 (by simp [reviewImage])
        · rename_i assess log2 heq2
          rw [h] at heq2
          have h2' : ((.ok none, []) :
              Except PipelineError (Option ImageAssessment) × List CallEv) =
              (.ok assess, log2) := heq2
          simp only [Prod.mk.injEq, Except.ok.injEq] at h2'
          split at hmem
          · rename_i e log3 heq3
            rw [← h2'.2] at hmem
            simp only [List.append_nil] at hmem
            rcases List.mem_append.mp hmem with hin | hin
            · have := detectLanguage_log_stage cfg rc req.text ⟨.image_review, f⟩
                (by rw [heq1]; exact hin)
              simp at this
            · have := classifyStage_log_stage cfg rc req.text assess ⟨.image_review, f⟩
                (by rw [heq3]; exact hin)
              simp at this
          · rename_i cls log3 heq3
            split at hmem
            · rename_i e log4 heq4
              rw [← h2'.2] at hmem
              simp only [List.append_nil] at hmem
              rcases List.mem_append.mp hmem with hin | hin
              · rcases List.mem_append.mp hin with hin2 | hin2
                · have := detectLanguage_log_stage cfg rc req.text ⟨.image_review, f⟩
                    (by rw [heq1]; exact hin2)
                  simp at this
                · have := classifyStage_log_stage cfg rc req.text assess ⟨.image_review, f⟩
                    (by rw [heq3]; exact hin2)
                  simp at this
              · have := generateReplyStage_log_stage cfg rc (escalationGate cfg cls).2 lang.code
                  assess req.text (escalationGate cfg cls).1 ⟨.image_review, f⟩
                  (by rw [heq4]; exact hin)
                simp at this
            · rename_i reply log4 heq4
              rw [← h2'.2] at hmem
              simp only [List.append_nil] at hmem
              rcases List.mem_append.mp hmem with hin | hin
              · rcases List.mem_append.mp hin with hin2 | hin2
                · have := detectLanguage_log_stage cfg rc req.text ⟨.image_review, f⟩
                    (by rw [heq1]; exact hin2)
                  simp at this
                · have := classifyStage_log_stage cfg rc req.text assess ⟨.image_review, f⟩
                    (by rw [heq3]; exact hin2)
                  simp at this
              · have := generateReplyStage_log_stage cfg rc (escalationGate cfg cls).2 lang.code
                  assess req.text (escalationGate cfg cls).1 ⟨.image_review, f⟩
                  (by rw [heq4]; exact hin)
                simp at this

theorem process_text_only_no_image_review_witness :
    reqText.image = none ∧
    ((∀ out log, process defaultConfig okClient reqText = (.ok out, log) →
        out.metadata.image_findings = none) ∧
      (∀ f, CallEv.mk StageTag.image_review f ∉ (process defaultConfig okClient reqText).2)) :=
  ⟨rfl, process_text_only_no_image_review defaultConfig okClient reqText rfl⟩

/-- Claim C9: in the chat widget's sendMessage, when the `/chat` request
fails the already-appended user message is kept (no rollback) and no
assistant message is appended, the error toast is shown, and the loading
flag ends up false after every guard-passing send, successful or not. -/
theorem sendMessage_chat_failure_behavior (net : Net) (s : ChatState)
    (hguard : ¬(jsTrim s.input = "" ∧ s.selectedImage = none)) :
    (sendMessage net s).1.isLoading = false ∧
    (∀ m err, sentMeta net s = some m → net.chat s.input m = .error err →
      (sendMessage net s).1.messages = s.messages ++ [mkUserMessage s.input] ∧
      SendEv.toastError ∈ (sendMessage net s).2) := by
  obtain ⟨msgs, inp, ld, sel⟩ := s
  unfold sendMessage
  rw [if_neg hguard]
  rcases sel with _ | file
  · rcases hchat : net.chat inp ReqMeta.emptyObj with e | resp
    · refine ⟨by simp [networkPhase, preNetworkState, chatPhase, hchat], ?_⟩
      intro m err hsm hc
      have hm : m = ReqMeta.emptyObj := by
        simp only [sentMeta, Option.some.injEq] at hsm
        exact hsm.symm
      subst hm
      exact ⟨by simp [networkPhase, preNetworkState, chatPhase, hchat, mkUserMessage],
        by simp [networkPhase, preNetworkState, chatPhase, hchat]⟩
    · refine ⟨by simp [networkPhase, preNetworkState, chatPhase, hchat], ?_⟩
      intro m err hsm hc
      have hm : m = ReqMeta.emptyObj := by
        simp only [sentMeta, Option.some.injEq] at hsm
        exact hsm.symm
      subst hm
      rw [hchat] at hc
      cases hc
  · rcases hup : net.upload file with e | path
    · refine ⟨by simp [networkPhase, preNetworkState, hup], ?_⟩
      intro m err hsm hc
      simp only [sentMeta, hup] at hsm
      cases hsm
    · rcases hchat : net.chat inp (ReqMeta.imageUrl path) with e | resp
      · refine ⟨by simp [networkPhase, preNetworkState, chatPhase, hup, hchat], ?_⟩
        intro m err hsm hc
        have hm : m = ReqMeta.imageUrl path := by
          simp only [sentMeta, hup, Option.some.injEq] at hsm
          exact hsm.symm
        subst hm
        exact ⟨by simp [networkPhase, preNetworkState, chatPhase, hup, hchat, mkUserMessage],
          by simp [networkPhase, preNetworkState, chatPhase, hup, hchat]⟩
      · refine ⟨by simp [networkPhase, preNetworkState, chatPhase, hup, hchat], ?_⟩
        intro m err hsm hc
        have hm : m = ReqMeta.imageUrl path := by
          simp only [sentMeta, hup, Option.some.injEq] at hsm
          exact hsm.symm
        subst hm
        rw [hchat] at hc
        cases hc

theorem sendMessage_chat_failure_behavior_witness :
    ¬(jsTrim textChatState.input = "" ∧ textChatState.selectedImage = none) ∧
    ((sendMessage chatFailNet textChatState).1.isLoading = false ∧
      (∀ m err, sentMeta chatFailNet textChatState = some m →
        chatFailNet.chat textChatState.input m = .error err →
        (sendMessage chatFailNet textChatState).1.messages =
          textChatState.messages ++ [mkUserMessage textChatState.input] ∧
        SendEv.toastError ∈ (sendMessage chatFailNet textChatState).2)) := by
  have hguard : ¬(jsTrim textChatState.input = "" ∧ textChatState.selectedImage = none) := by
    decide
  exact ⟨hguard, sendMessage_chat_failure_behavior chatFailNet textChatState hguard⟩

/-- Claim C10: in sendMessage the text input is cleared before any
network call (the network phase starts from a state whose input is
already empty, so a failed request cannot restore the typed text), the
selected image is cleared exactly when its upload succeeds and kept on
upload failure, and every `/chat` call carries the raw untrimmed input
as message content. -/
theorem sendMessage_clears_input_before_network (net : Net) (s : ChatState)
    (hguard : ¬(jsTrim s.input = "" ∧ s.selectedImage = none)) :
    sendMessage net s = networkPhase net s.input (preNetworkState s) ∧
    (preNetworkState s).input = "" ∧
    (sendMessage net s).1.input = "" ∧
    (∀ file err, s.selectedImage = some file → net.upload file = .error err →
      (sendMessage net s).1.selectedImage = some file) ∧
    (∀ file path, s.selectedImage = some file → net.upload file = .ok path →
      (sendMessage net s).1.selectedImage = none) ∧
    (∀ m meta, SendEv.chatCall m meta ∈ (sendMessage net s).2 → m = s.input) := by
  obtain ⟨msgs, inp, ld, sel⟩ := s
  refine ⟨?_, rfl, ?_, ?_, ?_, ?_⟩
  · unfold sendMessage
    rw [if_neg hguard]
  · unfold sendMessage
    rw [if_neg hguard]
    rcases sel with _ | file
    · rcases hchat : net.chat inp ReqMeta.emptyObj with e | resp <;>
        simp [networkPhase, preNetworkState, chatPhase, hchat]
    · rcases hup : net.upload file with e | path
      · simp [networkPhase, preNetworkState, hup]
      · rcases hchat : net.chat inp (ReqMeta.imageUrl path) with e | resp <;>
          simp [networkPhase, preNetworkState, chatPhase, hup, hchat]
  · intro file err hsel hup
    have hs : sel = some file := hsel
    subst hs
    unfold sendMessage
    rw [if_neg hguard]
    simp [networkPhase, preNetworkState, hup]
  · intro file path hsel hup
    have hs : sel = some file := hsel
    subst hs
    unfold sendMessage
    rw [if_neg hguard]
    rcases hchat : net.chat inp (ReqMeta.imageUrl path) with e | resp <;>
      simp [networkPhase, preNetworkState, chatPhase, hup, hchat]
  · intro m meta hmem
    unfold sendMessage at hmem
    rw [if_neg hguard] at hmem
    rcases sel with _ | file
    · rcases hchat : net.chat inp ReqMeta.emptyObj with e | resp <;>
        simp [networkPhase, preNetworkState, chatPhase, hchat] at hmem <;>
        tauto
    · rcases hup : net.upload file with e | path
      · simp [networkPhase, preNetworkState, hup] at hmem
      · rcases hchat : net.chat inp (ReqMeta.imageUrl path) with e | resp <;>
          simp [networkPhase, preNetworkState, chatPhase, hup, hchat] at hmem <;>
          tauto

theorem sendMessage_clears_input_before_network_witness :
    ¬(jsTrim imgChatState.input = "" ∧ imgChatState.selectedImage = none) ∧
    (sendMessage okNet imgChatState =
        networkPhase okNet imgChatState.input (preNetworkState imgChatState) ∧
      (preNetworkState imgChatState).input = "" ∧
      (sendMessage okNet imgChatState).1.input = "" ∧
      (∀ file err, imgChatState.selectedImage = some file → okNet.upload file = .error err →
        (sendMessage okNet imgChatState).1.selectedImage = some file) ∧
      (∀ file path, imgChatState.selectedImage = some file → okNet.upload file = .ok path →
        (sendMessage okNet imgChatState).1.selectedImage = none) ∧
      (∀ m meta, SendEv.chatCall m meta ∈ (sendMessage okNet imgChatState).2 →
        m = imgChatState.input)) := by
  have hguard : ¬(jsTrim imgChatState.input = "" ∧ imgChatState.selectedImage = none) := by
    decide
  exact ⟨hguard, sendMessage_clears_input_before_network okNet imgChatState hguard⟩

end FoodDelivery
